import Mathlib

/-!
Shallow embedding of the SnapFind local-first object/picture synchronization
layer (services/localStorage.js, services/storageService.js, services/supabase.js).

The on-device key-value store holds one JSON array of cached objects under a
fixed key; it is modelled as a `List LocalObj`.  The remote relational store is
modelled as lists of `Picture` and `ObjRow` rows, and the `objects_with_pictures`
view as a list of `ViewRow`.  Each fallible remote call is given an explicit
error input (`Bool` flag), and ambient effects (the authenticated user, fresh
id generation, the clock) are passed as explicit parameters.  Timestamps are
modelled as naturals in device-local milliseconds, so that the ISO-string
ordering and the local `Date` arithmetic of the source become `Nat` ordering.
-/

namespace SnapFind

/-- `safeUserId` (userIdUtils.js) on a string argument: a falsy (empty) string
yields null, every other string is returned as-is (non-UUID strings are only
warned about and returned anyway). -/
def safeUserId (s : String) : Option String :=
  if s = "" then none else some s

/-- The user-id resolution prologue shared by the sync-layer functions:
`if (!user_id) user_id = await getCurrentUserId(...) else user_id = safeUserId(user_id)`.
A missing or falsy (empty) argument falls back to the authenticated user. -/
def resolveUserId (arg auth : Option String) : Option String :=
  match arg with
  | none => auth
  | some s => if s = "" then auth else safeUserId s

/-- JS `a || b` over nullable strings: null, undefined and the empty string are falsy. -/
def jsOrStr (a b : Option String) : Option String :=
  match a with
  | some s => if s = "" then b else some s
  | none => b

/-- JS `x || null` over a nullable number: 0 is falsy and becomes null. -/
def jsOrIntNull (x : Option Int) : Option Int :=
  match x with
  | some v => if v = 0 then none else some v
  | none => none

/-! Strings are handled through their character sequences (as JS does); the
following structural helpers replace the corresponding JS string methods. -/

/-- Prefix test on character sequences. -/
def listPrefixes : List Char → List Char → Bool
  | [], _ => true
  | _ :: _, [] => false
  | a :: as, b :: bs => a == b && listPrefixes as bs

/-- `s.startsWith(pre)`. -/
def strStartsWith (s pre : String) : Bool :=
  listPrefixes pre.data s.data

/-- Substring containment on character sequences: some suffix starts with the
pattern (the empty pattern is contained everywhere). -/
def listContainsSub (pat : List Char) : List Char → Bool
  | [] => listPrefixes pat []
  | c :: cs => listPrefixes pat (c :: cs) || listContainsSub pat cs

/-- `s.toLowerCase()`. -/
def strLower (s : String) : String :=
  String.mk (s.data.map Char.toLower)

/-- Whitespace test for `trim`. -/
def isSpaceChar (c : Char) : Bool :=
  c == ' ' || c == '\t' || c == '\n' || c == '\r'

/-- `s.trim()`. -/
def strTrim (s : String) : String :=
  String.mk (((s.data.dropWhile isSpaceChar).reverse.dropWhile isSpaceChar).reverse)

/-- The path marker of a Supabase signed URL (storageService.js). -/
def signMarker : String := "/storage/v1/object/sign/images/"

/-- The characters following the first occurrence of the pattern, or `none`
when the pattern does not occur. -/
def dropThroughMarker (pat : List Char) : List Char → Option (List Char)
  | [] => if pat.isEmpty then some [] else none
  | c :: cs =>
    if listPrefixes pat (c :: cs) then some (List.drop pat.length (c :: cs))
    else dropThroughMarker pat cs

/-- `extractFilePathFromUrl` (storageService.js): a non-http string is returned
as-is; otherwise the first regex match of `/storage/v1/object/sign/images/([^?]+)`
is extracted (the greedy capture takes every character up to the first `?` after
the first marker occurrence), and no match yields null. -/
def extractFilePathFromUrl (url : String) : Option String :=
  if strStartsWith url "http" = false then some url
  else
    match dropThroughMarker signMarker.data url.data with
    | none => none
    | some rest =>
      let captured := rest.takeWhile fun c => c ≠ '?'
      if captured.isEmpty then none else some (String.mk captured)

/-- `createStorageReference` (storageService.js): standardize an image reference
to a storage file path; `extractFilePathFromUrl(imageUrl) || imageUrl`. -/
def createStorageReference (imageUrl : String) : String :=
  if strStartsWith imageUrl "http" = false then imageUrl
  else
    match extractFilePathFromUrl imageUrl with
    | some p => if p = "" then imageUrl else p
    | none => imageUrl

/-- A row of the remote `pictures` table. -/
structure Picture where
  id : String
  user_id : String
  image_url : String
  picture_name : String
  description : String
  deleted : Bool
  created_at : Nat
deriving DecidableEq, Repr

/-- A row of the remote `objects` table, as written by `saveObject`. -/
structure ObjRow where
  object_name : String
  picture_id : String
  deleted : Bool
  x_position : Option Int
  y_position : Option Int
  has_ai_coordinates : Bool
deriving DecidableEq, Repr

/-- A row of the remote `objects_with_pictures` view. -/
structure ViewRow where
  object_id : String
  object_name : String
  picture_id : String
  x_position : Option Int
  y_position : Option Int
  has_ai_coordinates : Bool
  deleted : Bool
  object_created_at : Nat
  user_id : String
  image_url : String
  picture_name : Option String
  description : Option String
deriving DecidableEq, Repr

/-- The remote relational store. -/
structure RemoteDB where
  pictures : List Picture
  objects : List ObjRow
deriving DecidableEq, Repr

/-- One entry of the local cache array.  The JSON objects are schemaless:
entries written by `saveObject` carry no `picture_id`/`deleted` field (modelled
as the `none` defaults), entries written by sync carry all fields; the rows
returned by the per-image remote transform carry no `user_id` (modelled as the
empty-string default). -/
structure LocalObj where
  id : String
  object_name : String
  image_url : String
  created_at : Nat
  user_id : String := ""
  picture_id : Option String := none
  x_position : Option Int := none
  y_position : Option Int := none
  has_ai_coordinates : Bool := false
  deleted : Option Bool := none
deriving DecidableEq, Repr

/-- Ordered insertion for `sortByLe`. -/
def insertByLe {α : Type} (le : α → α → Bool) (x : α) : List α → List α
  | [] => [x]
  | y :: ys => if le x y then x :: y :: ys else y :: insertByLe le x ys

/-- Insertion sort by a boolean comparison; models the `.order(...)` clause of
the remote selects (the claims depend on the result's membership, not on the
tie-breaking of the engine's sort). -/
def sortByLe {α : Type} (le : α → α → Bool) : List α → List α
  | [] => []
  | x :: xs => insertByLe le x (sortByLe le xs)

/-- Case-insensitive substring test, modelling both SQL `ilike '%q%'` and
JS `a.toLowerCase().includes(q.toLowerCase())`. -/
def containsCI (s pat : String) : Bool :=
  listContainsSub (strLower pat).data (strLower s).data

/-- The `objects_with_pictures` select used by the sync read/write paths:
`.eq('user_id', u).eq('deleted', false).order('object_created_at', desc)`. -/
def queryActiveObjects (view : List ViewRow) (uid : String) : List ViewRow :=
  sortByLe (fun a b => decide (b.object_created_at ≤ a.object_created_at))
    (view.filter fun r => r.user_id == uid && r.deleted == false)

/-- The search select of `searchObjectsWithPictureNames`: the active-objects
query with the additional `.ilike('object_name', %q%)` condition. -/
def querySearchObjects (view : List ViewRow) (uid query : String) : List ViewRow :=
  sortByLe (fun a b => decide (b.object_created_at ≤ a.object_created_at))
    (view.filter fun r =>
      r.user_id == uid && r.deleted == false && containsCI r.object_name query)

/-- The per-image select of `getObjectsForImage`:
`.eq('user_id', u).eq('image_url', ref).eq('deleted', false).order(asc)`. -/
def queryImageObjects (view : List ViewRow) (uid imageRef : String) : List ViewRow :=
  sortByLe (fun a b => decide (a.object_created_at ≤ b.object_created_at))
    (view.filter fun r =>
      r.user_id == uid && r.image_url == imageRef && r.deleted == false)

/-- The pictures select of `getAllPicturesMetadata`:
`.eq('user_id', u).order('created_at', desc)` — note: no soft-delete condition. -/
def queryAllPictures (pics : List Picture) (uid : String) : List Picture :=
  sortByLe (fun a b => decide (b.created_at ≤ a.created_at))
    (pics.filter fun p => p.user_id == uid)

/-- `getAllObjects` local read: parse the stored array and keep the resolved
user's entries; with no authenticated user it returns the empty array. -/
def getAllObjectsLocal (cache : List LocalObj) (uid : Option String) : List LocalObj :=
  match uid with
  | some u => cache.filter fun o => o.user_id == u
  | none => []

/-- `getAllObjects(user_id)` (localStorage.js): resolve the user, then filter
the local cache by it. -/
def getAllObjects (cache : List LocalObj) (arg auth : Option String) : List LocalObj :=
  getAllObjectsLocal cache (resolveUserId arg auth)

/-- `searchObjects` (localStorage.js), the local search fallback: truthy name
and case-insensitive containment of the query. -/
def searchObjects (cache : List LocalObj) (arg auth : Option String) (query : String) :
    List LocalObj :=
  (getAllObjects cache (resolveUserId arg auth) auth).filter fun o =>
    o.object_name != "" && containsCI o.object_name query

/-- Device-local date rendering (`toLocaleDateString`), abstracted to the
timestamp it formats. -/
def localeDateString (t : Nat) : String := toString t

/-- The fallback display name `Picture <date>` used by the read transforms. -/
def fallbackPictureName (t : Nat) : String := "Picture " ++ localeDateString t

/-- A transformed result row of the search / list read paths. -/
structure ResultRow where
  id : String
  object_name : String
  picture_id : String
  x_position : Option Int
  y_position : Option Int
  has_ai_coordinates : Bool
  deleted : Bool
  created_at : Nat
  user_id : String
  image_url : String
  picture_name : String
  description : Option String
deriving DecidableEq, Repr

/-- The result transform shared by `searchObjectsWithPictureNames` and
`getAllObjectsWithPictureNames`, including the `picture_name ||` fallback. -/
def transformResultRow (r : ViewRow) : ResultRow :=
  { id := r.object_id
    object_name := r.object_name
    picture_id := r.picture_id
    x_position := r.x_position
    y_position := r.y_position
    has_ai_coordinates := r.has_ai_coordinates
    deleted := r.deleted
    created_at := r.object_created_at
    user_id := r.user_id
    image_url := r.image_url
    picture_name :=
      (jsOrStr r.picture_name (some (fallbackPictureName r.object_created_at))).getD ""
    description := r.description }

/-- `searchObjectsWithPictureNames` (localStorage.js).  `Sum.inl` is the
database path (including the empty-result early return), `Sum.inr` the local
fallback taken when the remote query errors. -/
def searchObjectsWithPictureNames (cache : List LocalObj) (view : List ViewRow)
    (arg auth : Option String) (query : String) (err : Bool) :
    List ResultRow ⊕ List LocalObj :=
  match resolveUserId arg auth with
  | none => Sum.inl []
  | some u =>
    if err then Sum.inr (searchObjects cache (some u) auth query)
    else
      let results := querySearchObjects view u query
      if results.isEmpty then Sum.inl []
      else Sum.inl (results.map transformResultRow)

/-- `getAllObjectsWithPictureNames` (localStorage.js), same shape. -/
def getAllObjectsWithPictureNames (cache : List LocalObj) (view : List ViewRow)
    (arg auth : Option String) (err : Bool) :
    List ResultRow ⊕ List LocalObj :=
  match resolveUserId arg auth with
  | none => Sum.inl []
  | some u =>
    if err then Sum.inr (getAllObjects cache (some u) auth)
    else
      let results := queryActiveObjects view u
      if results.isEmpty then Sum.inl []
      else Sum.inl (results.map transformResultRow)

/-- The remote transform of `getObjectsForImage` (the JS object carries no
`user_id` field; the structure default stands for the absent field). -/
def transformImageObj (r : ViewRow) : LocalObj :=
  { id := r.object_id
    object_name := r.object_name
    x_position := r.x_position
    y_position := r.y_position
    has_ai_coordinates := r.has_ai_coordinates
    created_at := r.object_created_at
    picture_id := some r.picture_id
    image_url := r.image_url
    deleted := some r.deleted }

/-- `getObjectsForImage` (localStorage.js): try the per-image view query first;
on error or an empty result, fall back to the local cache filtered by
standardized reference, owner, and `!obj.deleted`. -/
def getObjectsForImage (cache : List LocalObj) (view : List ViewRow) (imageUrl : String)
    (arg auth : Option String) (err : Bool) : List LocalObj :=
  match resolveUserId arg auth with
  | none => []
  | some u =>
    let std := createStorageReference imageUrl
    let remote := queryImageObjects view u std
    if err = false ∧ remote.isEmpty = false then
      remote.map transformImageObj
    else
      (getAllObjects cache (some u) auth).filter fun o =>
        createStorageReference o.image_url == std && o.user_id == u
          && (o.deleted.getD false) == false

/-- `getAllPicturesMetadata` (localStorage.js): returns the owner's `pictures`
rows, newest first; the select carries no soft-delete condition. -/
def getAllPicturesMetadata (pics : List Picture) (arg auth : Option String) (err : Bool) :
    List Picture :=
  match resolveUserId arg auth with
  | none => []
  | some u => if err then [] else queryAllPictures pics u

/-- `deletePictureMetadata` (localStorage.js): a hard
`.delete().eq('user_id', u).eq('image_url', ref)` on the `pictures` table;
returns the new table contents and the success flag. -/
def deletePictureMetadata (pics : List Picture) (arg auth : Option String) (imageUrl : String)
    (err : Bool) : List Picture × Bool :=
  match resolveUserId arg auth with
  | none => (pics, false)
  | some u =>
    let std := createStorageReference imageUrl
    if err then (pics, false)
    else (pics.filter fun p => !(p.user_id == u && p.image_url == std), true)

/-- Modelled from the spec: the remote stored procedure
`soft_delete_objects_by_image` is not in the repository (only its caller
`deletePictureAndObjects` is); per the spec, user deletion soft-deletes (flag
flip) the owner's Picture for the image and its Objects, never hard-deleting,
and reports how many objects were marked. -/
def softDeleteObjectsByImage (db : RemoteDB) (uid imageUrl : String) : RemoteDB × Nat :=
  let isTarget : Picture → Bool := fun p => p.user_id == uid && p.image_url == imageUrl
  let targetIds := (db.pictures.filter isTarget).map Picture.id
  let markedPics := db.pictures.map fun p => if isTarget p then { p with deleted := true } else p
  let markedObjs := db.objects.map fun o =>
    if targetIds.contains o.picture_id then { o with deleted := true } else o
  let count := (db.objects.filter fun o =>
    targetIds.contains o.picture_id && o.deleted == false).length
  (⟨markedPics, markedObjs⟩, count)

/-- The result object of `deletePictureAndObjects` (storageService.js). -/
structure DeleteOutcome where
  success : Bool
  objectsDeleted : Nat
  storageDeleted : Bool
deriving DecidableEq, Repr

/-- `deletePictureAndObjects` (storageService.js): validates arguments, calls the
soft-delete stored procedure, and keeps the storage file (`storageDeleted` stays
false); any rpc error leaves the store untouched and reports failure. -/
def deletePictureAndObjects (db : RemoteDB) (userId imageUrl : String) (rpcErr : Bool) :
    RemoteDB × DeleteOutcome :=
  if userId = "" ∨ imageUrl = "" then (db, ⟨false, 0, false⟩)
  else if rpcErr then (db, ⟨false, 0, false⟩)
  else
    let r := softDeleteObjectsByImage db userId imageUrl
    (r.1, ⟨true, r.2, false⟩)

/-- A picture row with its soft-delete flag cleared; two rows agree under this
map exactly when they differ at most in the flag. -/
def pictureStripFlag (p : Picture) : Picture := { p with deleted := false }

/-- An object row with its soft-delete flag cleared. -/
def objRowStripFlag (o : ObjRow) : ObjRow := { o with deleted := false }

/-- The input object of `saveObject`. -/
structure ObjectData where
  object_name : String
  image_url : Option String := none
  x_position : Option Int := none
  y_position : Option Int := none
  has_ai_coordinates : Bool := false
deriving DecidableEq, Repr

/-- The ambient inputs of one `saveObject` call: the authenticated user, the
freshly generated local id, the clock, the generated picture id and funny name,
and the error outcomes of the three remote calls. -/
structure SaveEnv where
  authUser : Option String := none
  freshLocalId : String := ""
  now : Nat := 0
  freshPicId : String := ""
  funnyName : String := ""
  selectErr : Bool := false
  picInsertErr : Bool := false
  objInsertErr : Bool := false
deriving DecidableEq, Repr

/-- The two stores a `saveObject` call can touch. -/
structure SaveState where
  cache : List LocalObj
  db : RemoteDB
deriving DecidableEq, Repr

/-- The duplicate predicate of `saveObject`: same standardized image reference,
object name and owner id. -/
def isDuplicateOf (std objName uid : String) (o : LocalObj) : Bool :=
  o.image_url == std && o.object_name == objName && o.user_id == uid

/-- The `objectToSave` record built by `saveObject` (the spread copies the
input's fields; `picture_id` and `deleted` are absent on it). -/
def savedLocalObj (od : ObjectData) (u std : String) (env : SaveEnv) : LocalObj :=
  { id := env.freshLocalId
    object_name := od.object_name
    user_id := u
    image_url := std
    created_at := env.now
    x_position := od.x_position
    y_position := od.y_position
    has_ai_coordinates := od.has_ai_coordinates }

/-- The `objects` insert payload of `saveObject`: `deleted` is set to false and
`x/y || null` turn falsy coordinates into null. -/
def savedObjectRow (od : ObjectData) (pid : String) : ObjRow :=
  { object_name := od.object_name
    picture_id := pid
    deleted := false
    x_position := jsOrIntNull od.x_position
    y_position := jsOrIntNull od.y_position
    has_ai_coordinates := od.has_ai_coordinates }

/-- The picture lookup of the remote upsert:
`select('id').eq('user_id', u).eq('image_url', std).limit(1)`. -/
def pictureLookup (db : RemoteDB) (u std : String) : Option Picture :=
  db.pictures.find? fun p => p.user_id == u && p.image_url == std

/-- The picture row inserted when the lookup finds nothing. -/
def newPictureRow (env : SaveEnv) (u std : String) : Picture :=
  { id := env.freshPicId
    user_id := u
    image_url := std
    picture_name := env.funnyName
    description := "Contains detected objects"
    deleted := false
    created_at := env.now }

/-- The remote phase of `saveObject`: look up or create the picture, then insert
the object row.  A select or picture-insert error throws into the inner catch
(no further writes); an object-insert error is only logged. -/
def saveObjectRemote (env : SaveEnv) (od : ObjectData) (u std : String) (db : RemoteDB) :
    RemoteDB :=
  if env.selectErr then db
  else
    match pictureLookup db u std with
    | some p =>
      if env.objInsertErr then db
      else { db with objects := db.objects ++ [savedObjectRow od p.id] }
    | none =>
      if env.picInsertErr then db
      else
        let db1 := { db with pictures := db.pictures ++ [newPictureRow env u std] }
        if env.objInsertErr then db1
        else { db1 with objects := db1.objects ++ [savedObjectRow od env.freshPicId] }

/-- `saveObject` (localStorage.js).  Resolve the user (bail out without one);
standardize the image reference (`objectData.image_url || imageUrl`; when both
are absent the standardization throws and the outer catch leaves everything
unchanged); scan the *authenticated* user's cached rows (`getAllObjects()` takes
no argument here) for a duplicate triple and skip if found; otherwise append the
new entry to the cache and run the remote phase. -/
def saveObject (st : SaveState) (od : ObjectData) (userIdArg imageUrlArg : Option String)
    (env : SaveEnv) : SaveState :=
  match resolveUserId userIdArg env.authUser with
  | none => st
  | some u =>
    match jsOrStr od.image_url imageUrlArg with
    | none => st
    | some rawUrl =>
      let std := createStorageReference rawUrl
      let existing := getAllObjectsLocal st.cache env.authUser
      if existing.any (isDuplicateOf std od.object_name u) then st
      else
        { cache := st.cache ++ [savedLocalObj od u std env]
          db := saveObjectRemote env od u std st.db }

/-- The local entry a sync write stores for one view row. -/
def transformViewRow (r : ViewRow) : LocalObj :=
  { id := r.object_id
    object_name := r.object_name
    picture_id := some r.picture_id
    x_position := r.x_position
    y_position := r.y_position
    has_ai_coordinates := r.has_ai_coordinates
    deleted := some r.deleted
    created_at := r.object_created_at
    user_id := r.user_id
    image_url := r.image_url }

/-- `clearAndSyncFromSupabase` (localStorage.js): wipe the keyed store
(`AsyncStorage.removeItem`) before the remote fetch, then store exactly the
transformed remote rows; a remote error or an empty result leaves the store
wiped.  Returns (new cache contents, returned array). -/
def clearAndSyncFromSupabase (cache : List LocalObj) (view : List ViewRow)
    (arg auth : Option String) (err : Bool) : List LocalObj × List LocalObj :=
  match resolveUserId arg auth with
  | none => (cache, [])
  | some u =>
    let cleared : List LocalObj := []
    if err then (cleared, [])
    else
      let rows := queryActiveObjects view u
      if rows.isEmpty then (cleared, [])
      else
        let t := rows.map transformViewRow
        (t, t)

/-- The `writeMutex` spin loop, with fuel bounding how many passes are
examined: while the lock flag is set the loop sleeps and re-checks.  During a
call made while the flag is held by the caller itself, no task ever clears the
flag (the holder's `releaseMutex` runs only after this call returns, and every
other entrant only spins), so each pass re-reads `true`. -/
def acquireWriteMutex : Nat → Bool → Option Unit
  | _, false => some ()
  | 0, true => none
  | fuel + 1, true => acquireWriteMutex fuel true

/-- `clearAllObjects` (localStorage.js) under the fuelled mutex model: acquire
the write mutex, then either wipe the whole store (no user) or drop the user's
rows.  `none` means the call has not returned within the given fuel. -/
def clearAllObjectsRun (fuel : Nat) (locked : Bool) (cache : List LocalObj)
    (arg auth : Option String) : Option (List LocalObj) :=
  match acquireWriteMutex fuel locked with
  | none => none
  | some _ =>
    match (match arg with | none => auth | some s => if s = "" then auth else some s) with
    | none => some []
    | some u => some (cache.filter fun o => o.user_id != u)

/-- `syncFromSupabase` (localStorage.js), fuelled: acquire the (initially free)
write mutex, resolve the user, fetch the active rows; an empty result calls
`clearAllObjects(user_id)` while `isWriting` is still held by this very call;
otherwise merge (other users' rows kept, this user's rows replaced).  Returns
(new cache, returned array), or `none` if the call has not returned within the
fuel. -/
def syncFromSupabaseRun (fuel : Nat) (cache : List LocalObj) (view : List ViewRow)
    (arg auth : Option String) (err : Bool) : Option (List LocalObj × List LocalObj) :=
  match resolveUserId arg auth with
  | none => some (cache, [])
  | some u =>
    if err then some (cache, [])
    else
      let rows := queryActiveObjects view u
      if rows.isEmpty then
        match clearAllObjectsRun fuel true cache (some u) auth with
        | none => none
        | some cache1 => some (cache1, [])
      else
        let otherUsers := cache.filter fun o => o.user_id != u
        let t := rows.map transformViewRow
        some (otherUsers ++ t, t)

/-- The result object of `checkDailyPictureLimit`. -/
structure LimitResult where
  canTakePicture : Bool
  todayCount : Nat
  limit : Nat
deriving DecidableEq, Repr

/-- The fixed daily picture limit. -/
def DAILY_LIMIT : Nat := 10

/-- One day of device-local milliseconds (`new Date(y, m, d)` arithmetic). -/
def dayMs : Nat := 86400000

/-- Local midnight of the moment `now`. -/
def todayStartOf (now : Nat) : Nat := now - now % dayMs

/-- Membership of a creation time in today's window:
`todayStart <= created_at < todayStart + one day`. -/
def inTodayWindow (now t : Nat) : Bool :=
  decide (todayStartOf now ≤ t) && decide (t < todayStartOf now + dayMs)

/-- `checkDailyPictureLimit` (localStorage.js): without a valid user the gate is
closed; a remote count error (or thrown exception) fails open with a zero count;
otherwise count the owner's non-deleted pictures created today and open the gate
exactly while the count is below the limit. -/
def checkDailyPictureLimit (pics : List Picture) (arg auth : Option String) (now : Nat)
    (err : Bool) : LimitResult :=
  match resolveUserId arg auth with
  | none => { canTakePicture := false, todayCount := 0, limit := 10 }
  | some u =>
    if err then { canTakePicture := true, todayCount := 0, limit := DAILY_LIMIT }
    else
      let todayCount := (pics.filter fun p =>
        p.user_id == u && p.deleted == false && inTodayWindow now p.created_at).length
      { canTakePicture := decide (todayCount < DAILY_LIMIT)
        todayCount := todayCount
        limit := DAILY_LIMIT }

/-- ASCII lowercase letter test (`[a-z]`). -/
def isAsciiLowerAlpha (c : Char) : Bool :=
  decide ('a' ≤ c) && decide (c ≤ 'z')

/-- JS word-character test (`\w` = `[A-Za-z0-9_]`) on already-lowercased text. -/
def isWordChar (c : Char) : Bool :=
  isAsciiLowerAlpha c || (decide ('0' ≤ c) && decide (c ≤ '9')) || decide (c = '_')

/-- Maximal word-character runs of a character list (accumulator carries the
current run reversed). -/
def wordRuns : List Char → List Char → List (List Char)
  | [], acc => if acc.isEmpty then [] else [acc.reverse]
  | c :: cs, acc =>
    if isWordChar c then wordRuns cs (c :: acc)
    else if acc.isEmpty then wordRuns cs [] else acc.reverse :: wordRuns cs []

/-- The matches of `/\b[a-z]+\b/g` on the lowercased text: a maximal
word-character run matches exactly when it consists solely of letters (a run
touching a digit or underscore has no word boundary there). -/
def lowercaseWords (text : String) : List String :=
  ((wordRuns (strLower text).data []).filter fun run => run.all isAsciiLowerAlpha).map
    fun run => String.mk run

/-- The fixed object vocabulary of the heuristic fallback. -/
def commonObjects : List String :=
  ["chair", "table", "book", "phone", "laptop", "cup", "bottle", "bag",
   "keys", "glasses", "pen", "paper", "clock", "lamp", "plant", "picture",
   "computer", "mouse", "keyboard", "monitor", "headphones", "camera",
   "wallet", "watch", "shoe", "shirt", "jacket", "hat", "pillow", "blanket"]

/-- Set-insertion scan for `jsSetDedup`: keep an element unless already seen. -/
def jsSetDedupAux (seen : List String) : List String → List String
  | [] => []
  | x :: xs =>
    if seen.contains x then jsSetDedupAux seen xs
    else x :: jsSetDedupAux (x :: seen) xs

/-- `[...new Set(xs)]`: drop later duplicates, keeping first occurrences. -/
def jsSetDedup (l : List String) : List String := jsSetDedupAux [] l

/-- `extractObjectsFromText` (services/supabase.js): words of the lowercased
text that belong to the fixed vocabulary, deduplicated, first five. -/
def extractObjectsFromText (text : String) : List String :=
  (jsSetDedup ((lowercaseWords text).filter fun w => commonObjects.contains w)).take 5

/-- One detected object as returned by `analyzeImageWithAI`. -/
structure DetectedObject where
  name : String
  x : Int
  y : Int
deriving DecidableEq, Repr

/-- An element of a successfully parsed JSON array in the new format. -/
structure NamedItem where
  name : String
  x : Option Int := none
  y : Option Int := none
deriving DecidableEq, Repr

/-- The outcome of `JSON.parse` on the cleaned response, as far as the handler
distinguishes it: a nonempty array of named objects (new format), any other
array treated as names (old format), or a non-array value.  A thrown
`JSON.parse` error — the parse failure of interest — is the `none` case of the
`Option` below (a crash while mapping a malformed array lands in the same
catch). -/
inductive ParsedAI where
  | arrObjs : List NamedItem → ParsedAI
  | arrPlain : List String → ParsedAI
  | nonArray : ParsedAI
deriving DecidableEq, Repr

/-- JS `v || 50` on a nullable coordinate: null, undefined and 0 give 50. -/
def jsOr50 (x : Option Int) : Int :=
  match x with
  | some v => if v = 0 then 50 else v
  | none => 50

/-- `Math.max(0, Math.min(100, v))`. -/
def clamp100 (v : Int) : Int := max 0 (min 100 v)

/-- The response handling of `analyzeImageWithAI` (services/supabase.js) after
the vision call: the try block around JSON parsing and array processing, and its
catch-block fallback to `extractObjectsFromText` over the raw response text with
synthesized coordinates, or the hardcoded placeholder when nothing is found. -/
def handleAIResponse (raw : String) (parsed : Option ParsedAI) : List DetectedObject :=
  match parsed with
  | some (ParsedAI.arrObjs items) =>
    items.map fun it =>
      { name := strTrim (strLower it.name)
        x := clamp100 (jsOr50 it.x)
        y := clamp100 (jsOr50 it.y) }
  | some (ParsedAI.arrPlain names) =>
    names.mapIdx fun i n =>
      { name := strTrim (strLower n)
        x := 20 + (Int.ofNat ((i * 15) % 60))
        y := 20 + (Int.ofNat ((i * 20) % 60)) }
  | some ParsedAI.nonArray => [{ name := "unknown object", x := 50, y := 50 }]
  | none =>
    let withCoords := (extractObjectsFromText raw).mapIdx fun i n =>
      ({ name := n
         x := 25 + (Int.ofNat ((i * 20) % 50))
         y := 25 + (Int.ofNat ((i * 25) % 50)) } : DetectedObject)
    if withCoords.isEmpty then [{ name := "detected object", x := 50, y := 50 }]
    else withCoords

/-! Concrete rows and environments used by the witness and counterexample
evaluations. -/

/-- A soft-deleted picture row of user `u1`. -/
def samplePicDeleted : Picture :=
  { id := "p1", user_id := "u1", image_url := "user-u1/images/a.jpg",
    picture_name := "Sneaky Snapshot", description := "d", deleted := true,
    created_at := 5 }

/-- An active picture row of user `u1`. -/
def samplePicActive : Picture :=
  { id := "p2", user_id := "u1", image_url := "user-u1/images/b.jpg",
    picture_name := "Jolly View", description := "d", deleted := false,
    created_at := 7 }

/-- An active view row of user `u1`. -/
def sampleViewRow : ViewRow :=
  { object_id := "o1", object_name := "chair", picture_id := "p2",
    x_position := some 10, y_position := some 20, has_ai_coordinates := true,
    deleted := false, object_created_at := 7, user_id := "u1",
    image_url := "user-u1/images/b.jpg", picture_name := some "Jolly View",
    description := some "d" }

/-- A cached entry owned by `userU`. -/
def sampleDupEntry : LocalObj :=
  { id := "e0", object_name := "chair", image_url := "img/a.jpg",
    created_at := 0, user_id := "userU" }

/-- A `saveObject` input matching `sampleDupEntry`'s triple. -/
def sampleSaveData : ObjectData :=
  { object_name := "chair", image_url := some "img/a.jpg" }

/-- A save environment whose authenticated user differs from the passed owner. -/
def sampleSaveEnvMismatch : SaveEnv :=
  { authUser := some "userA", freshLocalId := "f1", now := 9, freshPicId := "pic9",
    funnyName := "Wobbly Find" }

/-- A save environment whose authenticated user is the passed owner. -/
def sampleSaveEnvMatch : SaveEnv :=
  { authUser := some "userU", freshLocalId := "f1", now := 9, freshPicId := "pic9",
    funnyName := "Wobbly Find" }

/-- A raw vision-API response text that fails to parse as JSON. -/
def sampleRawText : String := "a chair near a lamp"

/-- Like `sampleSaveEnvMatch` but the remote object insert fails. -/
def sampleSaveEnvFail : SaveEnv :=
  { authUser := some "userU", freshLocalId := "f1", now := 9, freshPicId := "pic9",
    funnyName := "Wobbly Find", objInsertErr := true }

/-! Helper lemmas. -/

theorem mem_insertByLe {α : Type} {le : α → α → Bool} {x a : α} {l : List α} :
    a ∈ insertByLe le x l ↔ a = x ∨ a ∈ l := by
  induction l with
  | nil => simp [insertByLe]
  | cons y ys ih =>
    simp only [insertByLe]
    split
    · simp [List.mem_cons]
    · simp only [List.mem_cons, ih]
      tauto

theorem mem_sortByLe {α : Type} {le : α → α → Bool} {a : α} {l : List α} :
    a ∈ sortByLe le l ↔ a ∈ l := by
  induction l with
  | nil => simp [sortByLe]
  | cons x xs ih => simp [sortByLe, mem_insertByLe, ih]

theorem mem_queryActiveObjects {view : List ViewRow} {u : String} {r : ViewRow}
    (h : r ∈ queryActiveObjects view u) : r.user_id = u ∧ r.deleted = false := by
  unfold queryActiveObjects at h
  rw [mem_sortByLe, List.mem_filter] at h
  simpa using h.2

theorem mem_querySearchObjects {view : List ViewRow} {u q : String} {r : ViewRow}
    (h : r ∈ querySearchObjects view u q) : r.user_id = u ∧ r.deleted = false := by
  unfold querySearchObjects at h
  rw [mem_sortByLe, List.mem_filter] at h
  have h2 := h.2
  simp only [Bool.and_eq_true, beq_iff_eq] at h2
  exact ⟨h2.1.1, h2.1.2⟩

theorem mem_queryImageObjects {view : List ViewRow} {u img : String} {r : ViewRow}
    (h : r ∈ queryImageObjects view u img) : r.user_id = u ∧ r.deleted = false := by
  unfold queryImageObjects at h
  rw [mem_sortByLe, List.mem_filter] at h
  have h2 := h.2
  simp only [Bool.and_eq_true, beq_iff_eq] at h2
  exact ⟨h2.1.1, h2.2⟩

/-- C1 (amended): on their database query paths, the object search
(`searchObjectsWithPictureNames`), object listing
(`getAllObjectsWithPictureNames`) and per-image object lookup
(`getObjectsForImage`, whose local fallback also filters the flag) never
return a row whose soft-delete flag is set.  The picture-metadata listing
applies no soft-delete filter; see `C1_counterexample`. -/
theorem C1_theorem (cache : List LocalObj) (view : List ViewRow)
    (arg auth : Option String) (q img : String) :
    (∀ rs, searchObjectsWithPictureNames cache view arg auth q false = Sum.inl rs →
      ∀ r ∈ rs, r.deleted = false) ∧
    (∀ rs, getAllObjectsWithPictureNames cache view arg auth false = Sum.inl rs →
      ∀ r ∈ rs, r.deleted = false) ∧
    (∀ err, ∀ o ∈ getObjectsForImage cache view img arg auth err,
      o.deleted.getD false = false) := by
  refine ⟨?_, ?_, ?_⟩
  · intro rs hrs r hr
    unfold searchObjectsWithPictureNames at hrs
    cases hres : resolveUserId arg auth with
    | none =>
      rw [hres] at hrs
      simp only [Sum.inl.injEq] at hrs
      subst hrs; simp at hr
    | some u =>
      rw [hres] at hrs
      simp only [Bool.false_eq_true, if_false] at hrs
      split at hrs
      · simp only [Sum.inl.injEq] at hrs
        subst hrs; simp at hr
      · simp only [Sum.inl.injEq] at hrs
        subst hrs
        obtain ⟨v, hv, hvr⟩ := List.mem_map.mp hr
        have hd := (mem_querySearchObjects hv).2
        rw [← hvr]
        simpa [transformResultRow] using hd
  · intro rs hrs r hr
    unfold getAllObjectsWithPictureNames at hrs
    cases hres : resolveUserId arg auth with
    | none =>
      rw [hres] at hrs
      simp only [Sum.inl.injEq] at hrs
      subst hrs; simp at hr
    | some u =>
      rw [hres] at hrs
      simp only [Bool.false_eq_true, if_false] at hrs
      split at hrs
      · simp only [Sum.inl.injEq] at hrs
        subst hrs; simp at hr
      · simp only [Sum.inl.injEq] at hrs
        subst hrs
        obtain ⟨v, hv, hvr⟩ := List.mem_map.mp hr
        have hd := (mem_queryActiveObjects hv).2
        rw [← hvr]
        simpa [transformResultRow] using hd
  · intro err o ho
    unfold getObjectsForImage at ho
    cases hres : resolveUserId arg auth with
    | none =>
      rw [hres] at ho
      simp at ho
    | some u =>
      rw [hres] at ho
      dsimp only at ho
      split at ho
      · obtain ⟨v, hv, hvo⟩ := List.mem_map.mp ho
        have hd := (mem_queryImageObjects hv).2
        rw [← hvo]
        simp [transformImageObj, hd]
      · have hp := (List.mem_filter.mp ho).2
        simp only [Bool.and_eq_true, beq_iff_eq] at hp
        exact hp.2

/-- C1 counterexample: `getAllPicturesMetadata`'s select has no soft-delete
condition, so a soft-deleted picture row of the owner appears in the
picture-metadata listing on the successful query path. -/
theorem C1_counterexample :
    samplePicDeleted.deleted = true ∧
    samplePicDeleted ∈ getAllPicturesMetadata [samplePicDeleted] (some "u1") none false := by
  decide

/-- Witness for `C1_theorem` at a concrete search result. -/
theorem C1_witness : (transformResultRow sampleViewRow).deleted = false :=
  (C1_theorem [] [sampleViewRow] (some "u1") none "ch" "img").1
    [transformResultRow sampleViewRow] (by decide)
    (transformResultRow sampleViewRow) (by simp)

/-- C2: on a successful remote query, `clearAndSyncFromSupabase` leaves the
local cache holding exactly the transformed remote non-soft-deleted rows of the
resolved owner (the keyed store is wiped first, so this also holds when the
query returns nothing), every surviving entry belongs to that owner with a
clear soft-delete flag, and every prior entry not among the fetched rows — any
local-only row, for any user — is gone. -/
theorem C2_theorem (cache : List LocalObj) (view : List ViewRow)
    (arg auth : Option String) (u : String)
    (hres : resolveUserId arg auth = some u) :
    (clearAndSyncFromSupabase cache view arg auth false).1
        = (queryActiveObjects view u).map transformViewRow ∧
    (∀ o ∈ (clearAndSyncFromSupabase cache view arg auth false).1,
        o.user_id = u ∧ o.deleted = some false) ∧
    (∀ o ∈ cache, o ∉ (queryActiveObjects view u).map transformViewRow →
        o ∉ (clearAndSyncFromSupabase cache view arg auth false).1) := by
  have h1 : (clearAndSyncFromSupabase cache view arg auth false).1
      = (queryActiveObjects view u).map transformViewRow := by
    unfold clearAndSyncFromSupabase
    rw [hres]
    cases hq : queryActiveObjects view u with
    | nil => simp [hq]
    | cons a as => simp [hq]
  refine ⟨h1, ?_, ?_⟩
  · intro o ho
    rw [h1] at ho
    obtain ⟨v, hv, hvo⟩ := List.mem_map.mp ho
    have hd := mem_queryActiveObjects hv
    rw [← hvo]
    exact ⟨hd.1, by simp [transformViewRow, hd.2]⟩
  · intro o _ hno
    rw [h1]
    exact hno

/-- Witness for `C2_theorem`: a prior foreign cache entry is dropped and the
cache equals the transformed remote row set. -/
theorem C2_witness :
    (clearAndSyncFromSupabase [sampleDupEntry] [sampleViewRow] (some "u1") none false).1
      = (queryActiveObjects [sampleViewRow] "u1").map transformViewRow :=
  (C2_theorem [sampleDupEntry] [sampleViewRow] (some "u1") none "u1" (by decide)).1

/-- C3 counterexample: `saveObject`'s duplicate scan reads `getAllObjects()`
with no argument, i.e. the *authenticated* user's rows.  With an explicit owner
id differing from the authenticated user, a cache entry carrying the exact
(standardized image reference, object name, owner) triple is not seen: the call
appends to the cache and issues remote writes instead of skipping. -/
theorem C3_counterexample :
    sampleDupEntry.image_url = createStorageReference "img/a.jpg" ∧
    sampleDupEntry.object_name = sampleSaveData.object_name ∧
    sampleDupEntry.user_id = "userU" ∧
    (saveObject ⟨[sampleDupEntry], ⟨[], []⟩⟩ sampleSaveData (some "userU") none
        sampleSaveEnvMismatch).cache ≠ [sampleDupEntry] ∧
    (saveObject ⟨[sampleDupEntry], ⟨[], []⟩⟩ sampleSaveData (some "userU") none
        sampleSaveEnvMismatch).db ≠ (⟨[], []⟩ : RemoteDB) := by
  decide

/-- C3 (amended): when the resolved owner is the authenticated user — the case
for every call that omits the owner or passes the authenticated user's id — a
cache entry with the same (standardized image reference, object name, owner)
triple makes `saveObject` skip entirely: the cache and the remote store are
returned unchanged.  The duplicate scan only inspects the authenticated user's
rows, so a matching triple under a different explicit owner id is not detected
(see `C3_counterexample`). -/
theorem C3_theorem (st : SaveState) (od : ObjectData) (arg imgArg : Option String)
    (env : SaveEnv) (u rawUrl : String)
    (hres : resolveUserId arg env.authUser = some u)
    (hauth : env.authUser = some u)
    (hurl : jsOrStr od.image_url imgArg = some rawUrl)
    (hdup : ∃ o ∈ st.cache,
        isDuplicateOf (createStorageReference rawUrl) od.object_name u o = true) :
    saveObject st od arg imgArg env = st := by
  unfold saveObject
  rw [hres, hurl]
  have hany : (getAllObjectsLocal st.cache env.authUser).any
      (isDuplicateOf (createStorageReference rawUrl) od.object_name u) = true := by
    rw [hauth]
    rw [List.any_eq_true]
    obtain ⟨o, ho, hdo⟩ := hdup
    have huid : o.user_id = u := by
      have := hdo
      simp only [isDuplicateOf, Bool.and_eq_true, beq_iff_eq] at this
      tauto
    refine ⟨o, ?_, hdo⟩
    unfold getAllObjectsLocal
    rw [List.mem_filter]
    exact ⟨ho, by simp [huid]⟩
  simp [hany]

/-- Witness for `C3_theorem`: with matching authenticated and passed owner, the
duplicate triple is skipped and both stores are unchanged. -/
theorem C3_witness :
    saveObject ⟨[sampleDupEntry], ⟨[], []⟩⟩ sampleSaveData (some "userU") none
        sampleSaveEnvMatch = ⟨[sampleDupEntry], ⟨[], []⟩⟩ :=
  C3_theorem ⟨[sampleDupEntry], ⟨[], []⟩⟩ sampleSaveData (some "userU") none
    sampleSaveEnvMatch "userU" "img/a.jpg" (by decide) (by decide) (by decide)
    ⟨sampleDupEntry, by decide, by decide⟩

/-- C4: on the successful path with a resolved owner, the daily quota check
counts exactly the owner's non-soft-deleted picture rows whose creation time
falls in the current local calendar day, reports the fixed limit 10, closes the
gate exactly when that count has reached the limit, and the counting window is
precisely "same local day as now" — it resets at the local-midnight boundary.
(The clock the boundaries are computed from is the device's local clock, a
single `now` parameter here; the rows' `created_at` values are the
server-stored creation times.) -/
theorem C4_theorem (pics : List Picture) (arg auth : Option String) (now : Nat)
    (u : String) (hres : resolveUserId arg auth = some u) :
    (checkDailyPictureLimit pics arg auth now false).todayCount
        = (pics.filter fun p =>
            p.user_id == u && p.deleted == false && inTodayWindow now p.created_at).length ∧
    (checkDailyPictureLimit pics arg auth now false).limit = 10 ∧
    ((checkDailyPictureLimit pics arg auth now false).canTakePicture = false
        ↔ DAILY_LIMIT ≤ (checkDailyPictureLimit pics arg auth now false).todayCount) ∧
    (∀ t, inTodayWindow now t = true ↔ t / dayMs = now / dayMs) := by
  have hc : checkDailyPictureLimit pics arg auth now false
      = { canTakePicture := decide ((pics.filter fun p =>
            p.user_id == u && p.deleted == false && inTodayWindow now p.created_at).length
              < DAILY_LIMIT)
          todayCount := (pics.filter fun p =>
            p.user_id == u && p.deleted == false && inTodayWindow now p.created_at).length
          limit := DAILY_LIMIT } := by
    unfold checkDailyPictureLimit
    rw [hres]
    rfl
  refine ⟨by rw [hc], by rw [hc]; rfl, ?_, ?_⟩
  · rw [hc]
    simp [Nat.not_lt]
  · intro t
    unfold inTodayWindow todayStartOf dayMs
    simp only [Bool.and_eq_true, decide_eq_true_eq]
    omega

/-- Witness for `C4_theorem` at a concrete store and clock. -/
theorem C4_witness : (checkDailyPictureLimit [samplePicActive] (some "u1") none 7 false).limit = 10 :=
  (C4_theorem [samplePicActive] (some "u1") none 7 "u1" (by decide)).2.1

/-- C5 counterexample: `deletePictureMetadata` issues a hard
`.delete()` on the `pictures` table; on its success path the owner's matching
Picture row is physically removed, not flag-flipped. -/
theorem C5_counterexample :
    samplePicActive.deleted = false ∧
    (deletePictureMetadata [samplePicActive] (some "u1") none "user-u1/images/b.jpg" false)
        = ([], true) := by
  decide

/-- C5 (amended): the picture-deletion flow `deletePictureAndObjects` never
physically removes a row: for every store and rpc outcome it preserves both
tables up to the soft-delete flag (and row counts in particular), delegating to
the soft-delete stored procedure.  `deletePictureMetadata`, by contrast,
hard-deletes matching Picture rows (see `C5_counterexample`). -/
theorem C5_theorem (db : RemoteDB) (userId imageUrl : String) (rpcErr : Bool) :
    (deletePictureAndObjects db userId imageUrl rpcErr).1.pictures.map pictureStripFlag
        = db.pictures.map pictureStripFlag ∧
    (deletePictureAndObjects db userId imageUrl rpcErr).1.objects.map objRowStripFlag
        = db.objects.map objRowStripFlag ∧
    (deletePictureAndObjects db userId imageUrl rpcErr).1.pictures.length
        = db.pictures.length := by
  unfold deletePictureAndObjects
  split
  · simp
  · split
    · simp
    · unfold softDeleteObjectsByImage
      refine ⟨?_, ?_, ?_⟩
      · dsimp only
        rw [List.map_map]
        refine List.map_congr_left ?_
        intro p _
        simp only [Function.comp_apply]
        split <;> rfl
      · dsimp only
        rw [List.map_map]
        refine List.map_congr_left ?_
        intro o _
        simp only [Function.comp_apply]
        split <;> rfl
      · dsimp only
        rw [List.length_map]

/-- C6: a non-duplicate `saveObject` whose remote phase fails at any of the
three calls (picture select, picture insert, object insert) still ends with the
new entry appended to the local cache: the local write precedes the remote
phase and every remote error is contained by the inner catch. -/
theorem C6_theorem (st : SaveState) (od : ObjectData) (arg imgArg : Option String)
    (env : SaveEnv) (u rawUrl : String)
    (hres : resolveUserId arg env.authUser = some u)
    (hurl : jsOrStr od.image_url imgArg = some rawUrl)
    (hnodup : (getAllObjectsLocal st.cache env.authUser).any
        (isDuplicateOf (createStorageReference rawUrl) od.object_name u) = false)
    (hfail : env.selectErr = true ∨ env.picInsertErr = true ∨ env.objInsertErr = true) :
    (saveObject st od arg imgArg env).cache
        = st.cache ++ [savedLocalObj od u (createStorageReference rawUrl) env] := by
  unfold saveObject
  rw [hres, hurl]
  simp [hnodup]

/-- Witness for `C6_theorem`: the remote object insert fails, the local entry
persists. -/
theorem C6_witness :
    (saveObject ⟨[], ⟨[], []⟩⟩ sampleSaveData (some "userU") none sampleSaveEnvFail).cache
        = [] ++ [savedLocalObj sampleSaveData "userU"
            (createStorageReference "img/a.jpg") sampleSaveEnvFail] :=
  C6_theorem ⟨[], ⟨[], []⟩⟩ sampleSaveData (some "userU") none sampleSaveEnvFail
    "userU" "img/a.jpg" (by decide) (by decide) (by decide) (by decide)

/-- C7: a non-duplicate `saveObject` whose remote phase succeeds looks up the
picture row by (owner, standardized image reference) and creates a new one
exactly when none exists, then appends exactly one object row referencing the
looked-up or freshly created picture id, inserted with its soft-delete flag
false. -/
theorem C7_theorem (st : SaveState) (od : ObjectData) (arg imgArg : Option String)
    (env : SaveEnv) (u rawUrl : String)
    (hres : resolveUserId arg env.authUser = some u)
    (hurl : jsOrStr od.image_url imgArg = some rawUrl)
    (hnodup : (getAllObjectsLocal st.cache env.authUser).any
        (isDuplicateOf (createStorageReference rawUrl) od.object_name u) = false)
    (hsel : env.selectErr = false) (hpic : env.picInsertErr = false)
    (hobj : env.objInsertErr = false) :
    (match pictureLookup st.db u (createStorageReference rawUrl) with
     | some p =>
        (saveObject st od arg imgArg env).db.pictures = st.db.pictures ∧
        (saveObject st od arg imgArg env).db.objects
          = st.db.objects ++ [savedObjectRow od p.id]
     | none =>
        (saveObject st od arg imgArg env).db.pictures
          = st.db.pictures ++ [newPictureRow env u (createStorageReference rawUrl)] ∧
        (saveObject st od arg imgArg env).db.objects
          = st.db.objects ++ [savedObjectRow od env.freshPicId]) ∧
    (∀ pid, (savedObjectRow od pid).deleted = false) := by
  have hdb : (saveObject st od arg imgArg env).db
      = saveObjectRemote env od u (createStorageReference rawUrl) st.db := by
    unfold saveObject
    rw [hres, hurl]
    simp [hnodup]
  constructor
  · cases hpl : pictureLookup st.db u (createStorageReference rawUrl) with
    | some p =>
      constructor
      · rw [hdb]; unfold saveObjectRemote; rw [hsel, hpl, hobj]; simp
      · rw [hdb]; unfold saveObjectRemote; rw [hsel, hpl, hobj]; simp
    | none =>
      constructor
      · rw [hdb]; unfold saveObjectRemote; rw [hsel, hpl, hpic, hobj]; simp
      · rw [hdb]; unfold saveObjectRemote; rw [hsel, hpl, hpic, hobj]; simp
  · intro pid
    rfl

/-- Witness for `C7_theorem`: against an empty remote store the picture is
created and the object row references its fresh id. -/
theorem C7_witness :
    (saveObject ⟨[], ⟨[], []⟩⟩ sampleSaveData (some "userU") none sampleSaveEnvMatch).db.pictures
        = [] ++ [newPictureRow sampleSaveEnvMatch "userU"
            (createStorageReference "img/a.jpg")] :=
  (C7_theorem ⟨[], ⟨[], []⟩⟩ sampleSaveData (some "userU") none sampleSaveEnvMatch
    "userU" "img/a.jpg" (by decide) (by decide) (by decide) (by decide) (by decide)
    (by decide)).1.1

theorem acquireWriteMutex_locked (fuel : Nat) : acquireWriteMutex fuel true = none := by
  induction fuel with
  | zero => rfl
  | succ n ih => simpa [acquireWriteMutex] using ih

/-- C9: the claim fails on the code — in the branch where the remote query
returns zero rows for an authenticated user, `syncFromSupabase` calls
`clearAllObjects` while still holding the busy-wait write lock; the nested
`writeMutex()` spin never observes the flag cleared (only `syncFromSupabase`'s
own `finally` would clear it, and it runs only after `clearAllObjects`
returns), so the call never completes: for every amount of fuel the fuelled
execution at such an input yields no result. -/
theorem C9_theorem :
    ∀ fuel : Nat, syncFromSupabaseRun fuel [] [] (some "u1") none false = none := by
  intro fuel
  unfold syncFromSupabaseRun
  simp [resolveUserId, safeUserId, queryActiveObjects, sortByLe,
    clearAllObjectsRun, acquireWriteMutex_locked]

/-- C10: the daily quota check fails open — with a resolved owner, a remote
count error (or thrown exception) yields `canTakePicture = true` with a zero
count, so the limit is not enforced on error paths; among the non-success
paths only a missing/invalid resolved user id yields `canTakePicture = false`
(there with a zero count too, whether or not the query would error). -/
theorem C10_theorem (pics : List Picture) (now : Nat) :
    (∀ arg auth u, resolveUserId arg auth = some u →
      checkDailyPictureLimit pics arg auth now true
        = { canTakePicture := true, todayCount := 0, limit := 10 }) ∧
    (∀ arg auth, resolveUserId arg auth = none →
      ∀ err, checkDailyPictureLimit pics arg auth now err
        = { canTakePicture := false, todayCount := 0, limit := 10 }) := by
  constructor
  · intro arg auth u hres
    unfold checkDailyPictureLimit
    rw [hres]
    rfl
  · intro arg auth hres err
    unfold checkDailyPictureLimit
    rw [hres]

/-- Witness for `C10_theorem`: a concrete failing query fails open, and a
missing user closes the gate. -/
theorem C10_witness :
    checkDailyPictureLimit [samplePicActive] (some "u1") none 7 true
      = { canTakePicture := true, todayCount := 0, limit := 10 } :=
  (C10_theorem [samplePicActive] 7).1 (some "u1") none "u1" (by decide)

theorem mem_jsSetDedupAux {a : String} :
    ∀ {l seen : List String}, a ∈ jsSetDedupAux seen l → a ∈ l := by
  intro l
  induction l with
  | nil => intro seen h; simp [jsSetDedupAux] at h
  | cons x xs ih =>
    intro seen h
    rw [jsSetDedupAux] at h
    split at h
    · exact List.mem_cons_of_mem _ (ih h)
    · rcases List.mem_cons.mp h with h | h
      · exact h ▸ List.mem_cons_self _ _
      · exact List.mem_cons_of_mem _ (ih h)

theorem not_mem_seen_jsSetDedupAux {a : String} :
    ∀ {l seen : List String}, a ∈ jsSetDedupAux seen l → a ∉ seen := by
  intro l
  induction l with
  | nil => intro seen h; simp [jsSetDedupAux] at h
  | cons x xs ih =>
    intro seen h
    rw [jsSetDedupAux] at h
    split at h
    · exact ih h
    · rename_i hc
      rcases List.mem_cons.mp h with h | h
      · subst h
        intro hmem
        exact hc (by simpa using hmem)
      · intro hmem
        exact ih h (List.mem_cons_of_mem _ hmem)

theorem mem_jsSetDedup {l : List String} {a : String} (h : a ∈ jsSetDedup l) : a ∈ l :=
  mem_jsSetDedupAux h

theorem nodup_jsSetDedupAux : ∀ (l seen : List String), (jsSetDedupAux seen l).Nodup := by
  intro l
  induction l with
  | nil => intro seen; simp [jsSetDedupAux]
  | cons x xs ih =>
    intro seen
    rw [jsSetDedupAux]
    split
    · exact ih _
    · refine List.nodup_cons.mpr ⟨?_, ih _⟩
      intro hmem
      exact not_mem_seen_jsSetDedupAux hmem (List.mem_cons_self _ _)

theorem nodup_jsSetDedup (l : List String) : (jsSetDedup l).Nodup :=
  nodup_jsSetDedupAux l []

theorem extract_length_le (text : String) : (extractObjectsFromText text).length ≤ 5 := by
  unfold extractObjectsFromText
  exact List.length_take_le _ _

theorem extract_nodup (text : String) : (extractObjectsFromText text).Nodup := by
  unfold extractObjectsFromText
  exact (List.take_sublist _ _).nodup (nodup_jsSetDedup _)

theorem extract_subset_vocab {text w : String}
    (h : w ∈ extractObjectsFromText text) : w ∈ commonObjects := by
  unfold extractObjectsFromText at h
  have h1 := List.take_subset _ _ h
  have h2 := mem_jsSetDedup h1
  rw [List.mem_filter] at h2
  simpa using h2.2

theorem map_name_synth (l : List String) (f g : Nat → Int) :
    ((l.mapIdx fun i n => ({ name := n, x := f i, y := g i } : DetectedObject)).map
        DetectedObject.name) = l := by
  induction l generalizing f g with
  | nil => simp
  | cons a as ih =>
    rw [List.mapIdx_cons]
    simp only [List.map_cons]
    rw [ih (fun i => f (i + 1)) (fun i => g (i + 1))]

/-- C8: when the cleaned response fails to parse (or its processing throws),
`analyzeImageWithAI` swallows the error: the result is the heuristic keyword
fallback — the vocabulary words of the raw text, deduplicated, at most five,
each given synthesized coordinates — or the hardcoded placeholder object when
the heuristic finds nothing, and it is never empty. -/
theorem C8_theorem (raw : String) :
    handleAIResponse raw none ≠ [] ∧
    (extractObjectsFromText raw = [] →
      handleAIResponse raw none
        = [{ name := "detected object", x := 50, y := 50 }]) ∧
    (extractObjectsFromText raw ≠ [] →
      ((handleAIResponse raw none).map DetectedObject.name = extractObjectsFromText raw ∧
       (handleAIResponse raw none).length ≤ 5 ∧
       ((handleAIResponse raw none).map DetectedObject.name).Nodup ∧
       ∀ o ∈ handleAIResponse raw none, o.name ∈ commonObjects)) := by
  have hmain : handleAIResponse raw none
      = if (extractObjectsFromText raw).isEmpty
          then [{ name := "detected object", x := 50, y := 50 }]
          else (extractObjectsFromText raw).mapIdx fun i n =>
            ({ name := n, x := 25 + (Int.ofNat ((i * 20) % 50)),
               y := 25 + (Int.ofNat ((i * 25) % 50)) } : DetectedObject) := by
    unfold handleAIResponse
    cases hx : extractObjectsFromText raw with
    | nil => simp
    | cons a as => simp [List.mapIdx_cons]
  refine ⟨?_, ?_, ?_⟩
  · rw [hmain]
    cases hx : extractObjectsFromText raw with
    | nil => simp
    | cons a as => simp [List.mapIdx_cons]
  · intro hx
    rw [hmain, hx]
    simp
  · intro hx
    have hne : (extractObjectsFromText raw).isEmpty = false := by
      cases hxx : extractObjectsFromText raw with
      | nil => exact absurd hxx hx
      | cons a as => simp
    rw [hmain, if_neg (by simp [hne])]
    refine ⟨map_name_synth _ _ _, ?_, ?_, ?_⟩
    · have hl := congrArg List.length (map_name_synth (extractObjectsFromText raw)
        (fun i => 25 + (Int.ofNat ((i * 20) % 50)))
        (fun i => 25 + (Int.ofNat ((i * 25) % 50))))
      rw [List.length_map] at hl
      rw [hl]
      exact extract_length_le raw
    · rw [map_name_synth]
      exact extract_nodup raw
    · intro o ho
      have hn : o.name ∈ extractObjectsFromText raw := by
        rw [← map_name_synth (extractObjectsFromText raw)
          (fun i => 25 + (Int.ofNat ((i * 20) % 50)))
          (fun i => 25 + (Int.ofNat ((i * 25) % 50)))]
        exact List.mem_map_of_mem _ ho
      exact extract_subset_vocab hn

/-- Witness for `C8_theorem` on a concrete unparseable response text. -/
theorem C8_witness : (handleAIResponse sampleRawText none).length ≤ 5 :=
  ((C8_theorem sampleRawText).2.2 (by decide)).2.1

end SnapFind
